import Mathlib

/-!
Shallow embedding of the `tracing-fluent-assertions` crate
(src/matcher.rs, src/state.rs, src/layer.rs, src/assertion.rs).

Spans are modelled as records carrying a name, a target, a set of field
names and a parent pointer; the registry's `HashMap<SpanMatcher,
Arc<EntryState>>` is modelled as an association list from matchers to
indices into a heap of `EntryState` values (the heap plays the role of
the set of all `Arc<EntryState>` allocations, so that dropped registry
entries remain observable through handles that still hold them).
-/

set_option autoImplicit false

namespace FluentAssertions

/-- A `tracing` span as seen through `SpanRef`: a name, a target, the set
of field names present on it, and a chain of parents ending at a root. -/
inductive SpanRef : Type where
  | root (name target : String) (fields : List String)
  | child (name target : String) (fields : List String) (parent : SpanRef)
deriving DecidableEq

def SpanRef.name : SpanRef → String
  | .root n _ _ => n
  | .child n _ _ _ => n

def SpanRef.target : SpanRef → String
  | .root _ t _ => t
  | .child _ t _ _ => t

def SpanRef.fields : SpanRef → List String
  | .root _ _ f => f
  | .child _ _ f _ => f

def SpanRef.parent : SpanRef → Option SpanRef
  | .root _ _ _ => none
  | .child _ _ _ p => some p

/-- The strict ancestors of a span (its parent, grandparent, ..., root),
excluding the span itself. -/
def SpanRef.ancestors : SpanRef → List SpanRef
  | .root _ _ _ => []
  | .child _ _ _ p => p :: p.ancestors

/-- `FieldCriterion` from src/matcher.rs. -/
inductive FieldCriterion : Type where
  | exists_ (field : String)
deriving DecidableEq

/-- `SpanMatcher` from src/matcher.rs.  Equality is the derived structural
equality: `fields` is a `Vec`, so its order participates in equality. -/
structure SpanMatcher : Type where
  name : Option String
  target : Option String
  parent_name : Option String
  fields : List FieldCriterion
deriving DecidableEq

/-- `SpanMatcher::default()` (all criteria unset). -/
def SpanMatcher.default : SpanMatcher := ⟨none, none, none, []⟩

def SpanMatcher.set_name (m : SpanMatcher) (name : String) : SpanMatcher :=
  { m with name := some name }

def SpanMatcher.set_parent_name (m : SpanMatcher) (name : String) : SpanMatcher :=
  { m with parent_name := some name }

def SpanMatcher.set_target (m : SpanMatcher) (target : String) : SpanMatcher :=
  { m with target := some target }

def SpanMatcher.add_field_exists (m : SpanMatcher) (field : String) : SpanMatcher :=
  { m with fields := m.fields ++ [FieldCriterion.exists_ field] }

/-- The `while let Some(span) = parent` walk in `SpanMatcher::matches`:
starting from a given span, scan it and all of its ancestors for one
whose name equals `name`. -/
def chainHasName : SpanRef → String → Bool
  | .root n _ _, name => n == name
  | .child n _ _ p, name => n == name || chainHasName p name

/-- `SpanMatcher::matches` from src/matcher.rs: each unset criterion is
skipped, each set criterion returns `false` early on a mismatch; the
parent walk starts at `span.parent()`. -/
def SpanMatcher.matches (m : SpanMatcher) (span : SpanRef) : Bool :=
  (match m.name with
    | some name => span.name == name
    | none => true) &&
  (match m.target with
    | some target => span.target == target
    | none => true) &&
  (match m.parent_name with
    | some name =>
        match span.parent with
        | some p => chainHasName p name
        | none => false
    | none => true) &&
  (if m.fields.isEmpty then true
   else m.fields.all fun fc =>
     match fc with
     | .exists_ f => span.fields.contains f)

/-- `EntryState` from src/state.rs: the four `AtomicUsize` counters. -/
structure EntryState : Type where
  created : Nat
  entered : Nat
  exited : Nat
  closed : Nat
deriving DecidableEq

/-- `EntryState::default()`: all four counters zero. -/
def EntryState.default : EntryState := ⟨0, 0, 0, 0⟩

def EntryState.track_created (e : EntryState) : EntryState :=
  { e with created := e.created + 1 }

def EntryState.track_entered (e : EntryState) : EntryState :=
  { e with entered := e.entered + 1 }

def EntryState.track_exited (e : EntryState) : EntryState :=
  { e with exited := e.exited + 1 }

def EntryState.track_closed (e : EntryState) : EntryState :=
  { e with closed := e.closed + 1 }

def EntryState.num_created (e : EntryState) : Nat := e.created

def EntryState.num_entered (e : EntryState) : Nat := e.entered

def EntryState.num_exited (e : EntryState) : Nat := e.exited

def EntryState.num_closed (e : EntryState) : Nat := e.closed

/-- The four span lifecycle transitions handled by
`FluentAssertionsLayer` (src/layer.rs). -/
inductive Lifecycle : Type where
  | created
  | entered
  | exited
  | closed
deriving DecidableEq

/-- Selects the `track_*` increment for one lifecycle transition. -/
def EntryState.track (l : Lifecycle) (e : EntryState) : EntryState :=
  match l with
  | .created => e.track_created
  | .entered => e.track_entered
  | .exited => e.track_exited
  | .closed => e.track_closed

/-- Reads the counter for one lifecycle transition. -/
def EntryState.num (l : Lifecycle) (e : EntryState) : Nat :=
  match l with
  | .created => e.num_created
  | .entered => e.num_entered
  | .exited => e.num_exited
  | .closed => e.num_closed

/-- `State` from src/state.rs.  `entries` is the
`HashMap<SpanMatcher, Arc<EntryState>>` as an association list whose
values are indices into `heap`; `heap` holds every `Arc<EntryState>`
ever allocated, so shared handles stay valid after map removal. -/
structure State : Type where
  entries : List (SpanMatcher × Nat)
  heap : List EntryState
deriving DecidableEq

/-- The empty registry (`State::default()`). -/
def State.init : State := ⟨[], []⟩

/-- In-place update of one heap cell, modelling mutation through an
`Arc<EntryState>`. -/
def updateAt (xs : List EntryState) (i : Nat) (f : EntryState → EntryState) :
    List EntryState :=
  match xs, i with
  | [], _ => []
  | x :: rest, 0 => f x :: rest
  | x :: rest, n + 1 => x :: updateAt rest n f

/-- `State::create_entry` from src/state.rs:
`entries.entry(matcher).or_insert_with(|| Arc::new(EntryState::default()))`,
returning a clone of the `Arc` (here: the heap index). -/
def State.create_entry (s : State) (matcher : SpanMatcher) : Nat × State :=
  match s.entries.find? (fun p => p.1 == matcher) with
  | some p => (p.2, s)
  | none =>
      (s.heap.length,
       { entries := s.entries ++ [(matcher, s.heap.length)],
         heap := s.heap ++ [EntryState.default] })

/-- `State::get_entry` from src/state.rs:
`entries.iter().find(|(matcher, _)| matcher.matches(&span))`, returning
at most one entry — the first whose matcher accepts the span. -/
def State.get_entry (s : State) (span : SpanRef) : Option Nat :=
  (s.entries.find? (fun p => p.1.matches span)).map (fun p => p.2)

/-- Modelled from the spec: `State::remove_entry` is called by
`impl Drop for Assertion` (src/assertion.rs) but its definition is not
present under src/; per spec §4.3 it "removes the mapping for a
structurally-equal matcher", is a no-op when no such entry exists, and
touches only the registry's own mapping (never the shared counters). -/
def State.remove_entry (s : State) (matcher : SpanMatcher) : State :=
  { s with entries := s.entries.filter (fun p => !(p.1 == matcher)) }

/-- One lifecycle hook of `FluentAssertionsLayer` (src/layer.rs):
`if let Some(entry) = self.state.get_entry(span) { entry.track_*() }`. -/
def State.dispatch (s : State) (l : Lifecycle) (span : SpanRef) : State :=
  match s.get_entry span with
  | some id => { s with heap := updateAt s.heap id (EntryState.track l) }
  | none => s

/-- `FluentAssertionsLayer::new_span`. -/
def State.new_span (s : State) (span : SpanRef) : State :=
  s.dispatch .created span

/-- `FluentAssertionsLayer::on_enter`. -/
def State.on_enter (s : State) (span : SpanRef) : State :=
  s.dispatch .entered span

/-- `FluentAssertionsLayer::on_exit`. -/
def State.on_exit (s : State) (span : SpanRef) : State :=
  s.dispatch .exited span

/-- `FluentAssertionsLayer::on_close`. -/
def State.on_close (s : State) (span : SpanRef) : State :=
  s.dispatch .closed span

/-- `AssertionCriterion` from src/assertion.rs. -/
inductive AssertionCriterion : Type where
  | WasCreated
  | WasEntered
  | WasExited
  | WasClosed
  | WasNotCreated
  | WasNotEntered
  | WasNotExited
  | WasNotClosed
  | CreatedExactly (times : Nat)
  | EnteredExactly (times : Nat)
  | ExitedExactly (times : Nat)
  | ClosedExactly (times : Nat)
  | CreatedAtLeast (times : Nat)
  | EnteredAtLeast (times : Nat)
  | ExitedAtLeast (times : Nat)
  | ClosedAtLeast (times : Nat)
deriving DecidableEq

/-- `AssertionCriterion::try_assert` from src/assertion.rs. -/
def AssertionCriterion.try_assert (c : AssertionCriterion) (state : EntryState) : Bool :=
  match c with
  | .WasCreated => state.num_created != 0
  | .WasEntered => state.num_entered != 0
  | .WasExited => state.num_exited != 0
  | .WasClosed => state.num_closed != 0
  | .WasNotCreated => state.num_created == 0
  | .WasNotEntered => state.num_entered == 0
  | .WasNotExited => state.num_exited == 0
  | .WasNotClosed => state.num_closed == 0
  | .CreatedExactly times => state.num_created == times
  | .EnteredExactly times => state.num_entered == times
  | .ExitedExactly times => state.num_exited == times
  | .ClosedExactly times => state.num_closed == times
  | .CreatedAtLeast times => state.num_created ≥ times
  | .EnteredAtLeast times => state.num_entered ≥ times
  | .ExitedAtLeast times => state.num_exited ≥ times
  | .ClosedAtLeast times => state.num_closed ≥ times

/-- The failure message of a `assert!`/`assert_eq!` macro: the criterion
that failed together with the expected and actual counter values. -/
def assertionMessage (label : String) (expected actual : String) : String :=
  "assertion failed: " ++ label ++ ", expected: " ++ expected ++
    ", actual: " ++ actual

/-- `AssertionCriterion::assert` from src/assertion.rs.  A panic of the
`assert!`/`assert_eq!` macros is modelled as `Except.error` carrying the
failing criterion and the expected-vs-actual values. -/
def AssertionCriterion.assert (c : AssertionCriterion) (state : EntryState) :
    Except String Unit :=
  match c with
  | .WasCreated =>
      if state.num_created != 0 then .ok ()
      else .error (assertionMessage "was_created" "!= 0" (toString state.num_created))
  | .WasEntered =>
      if state.num_entered != 0 then .ok ()
      else .error (assertionMessage "was_entered" "!= 0" (toString state.num_entered))
  | .WasExited =>
      if state.num_exited != 0 then .ok ()
      else .error (assertionMessage "was_exited" "!= 0" (toString state.num_exited))
  | .WasClosed =>
      if state.num_closed != 0 then .ok ()
      else .error (assertionMessage "was_closed" "!= 0" (toString state.num_closed))
  | .WasNotCreated =>
      if state.num_created == 0 then .ok ()
      else .error (assertionMessage "was_not_created" "0" (toString state.num_created))
  | .WasNotEntered =>
      if state.num_entered == 0 then .ok ()
      else .error (assertionMessage "was_not_entered" "0" (toString state.num_entered))
  | .WasNotExited =>
      if state.num_exited == 0 then .ok ()
      else .error (assertionMessage "was_not_exited" "0" (toString state.num_exited))
  | .WasNotClosed =>
      if state.num_closed == 0 then .ok ()
      else .error (assertionMessage "was_not_closed" "0" (toString state.num_closed))
  | .CreatedExactly times =>
      if state.num_created == times then .ok ()
      else .error (assertionMessage "was_created_exactly" (toString times)
        (toString state.num_created))
  | .EnteredExactly times =>
      if state.num_entered == times then .ok ()
      else .error (assertionMessage "was_entered_exactly" (toString times)
        (toString state.num_entered))
  | .ExitedExactly times =>
      if state.num_exited == times then .ok ()
      else .error (assertionMessage "was_exited_exactly" (toString times)
        (toString state.num_exited))
  | .ClosedExactly times =>
      if state.num_closed == times then .ok ()
      else .error (assertionMessage "was_closed_exactly" (toString times)
        (toString state.num_closed))
  | .CreatedAtLeast times =>
      if state.num_created ≥ times then .ok ()
      else .error (assertionMessage "was_created_at_least" (toString times)
        (toString state.num_created))
  | .EnteredAtLeast times =>
      if state.num_entered ≥ times then .ok ()
      else .error (assertionMessage "was_entered_at_least" (toString times)
        (toString state.num_entered))
  | .ExitedAtLeast times =>
      if state.num_exited ≥ times then .ok ()
      else .error (assertionMessage "was_exited_at_least" (toString times)
        (toString state.num_exited))
  | .ClosedAtLeast times =>
      if state.num_closed ≥ times then .ok ()
      else .error (assertionMessage "was_closed_at_least" (toString times)
        (toString state.num_closed))

/-- `Assertion` from src/assertion.rs.  `entry_state` is the heap index
of the shared `Arc<EntryState>`; the `state: Arc<State>` back reference
is implicit (operations that need the registry take it as an argument). -/
structure Assertion : Type where
  entry_state : Nat
  matcher : SpanMatcher
  criteria : List AssertionCriterion
deriving DecidableEq

/-- The entry counters an assertion handle reads: dereferencing its
`Arc<EntryState>` in the heap. -/
def Assertion.entry (a : Assertion) (s : State) : EntryState :=
  s.heap.getD a.entry_state EntryState.default

/-- `Assertion::try_assert` (src/assertion.rs): `false` at the first
criterion whose `try_assert` fails, `true` when all pass.  It reads the
counters and returns a `Bool`: the counters are untouched, so it can be
called repeatedly. -/
def Assertion.try_assert (a : Assertion) (entry_state : EntryState) : Bool :=
  a.criteria.all fun c => c.try_assert entry_state

/-- Iterating `criterion.assert(...)` over a criteria list: the first
panic (modelled as `Except.error`) aborts the loop. -/
def assertAll (criteria : List AssertionCriterion) (entry_state : EntryState) :
    Except String Unit :=
  match criteria with
  | [] => .ok ()
  | c :: rest =>
      match c.assert entry_state with
      | .ok _ => assertAll rest entry_state
      | .error msg => .error msg

/-- `Assertion::assert` (src/assertion.rs): asserts every criterion in
order; a failing criterion panics (modelled as `Except.error`). -/
def Assertion.assert (a : Assertion) (entry_state : EntryState) :
    Except String Unit :=
  assertAll a.criteria entry_state

/-- `impl Drop for Assertion` (src/assertion.rs): on disposal the handle
asks the registry to remove its matcher's entry. -/
def Assertion.drop (a : Assertion) (s : State) : State :=
  s.remove_entry a.matcher

/-- The typestate stages of `AssertionBuilder` (src/assertion.rs):
`NoMatcher`, `NoCriteria`, `Constrained`. -/
inductive BuilderStage : Type where
  | NoMatcher
  | NoCriteria
  | Constrained
deriving DecidableEq

/-- The data of `AssertionBuilder<S>` (src/assertion.rs), minus the
phantom stage (tracked by `ReachableBuilder`) and the `Arc<State>`
back reference (threaded explicitly through `finalize`). -/
structure AssertionBuilder : Type where
  matcher : Option SpanMatcher
  criteria : List AssertionCriterion
deriving DecidableEq

/-- `AssertionRegistry::build`: the initial `NoMatcher`-stage builder. -/
def AssertionBuilder.build : AssertionBuilder := ⟨none, []⟩

/-- `AssertionBuilder::with_name` (both the `NoMatcher` and `NoCriteria`
impls): `self.matcher.get_or_insert_with(SpanMatcher::default)` then
`set_name`. -/
def AssertionBuilder.with_name (b : AssertionBuilder) (name : String) :
    AssertionBuilder :=
  { b with matcher := some ((b.matcher.getD SpanMatcher.default).set_name name) }

/-- `AssertionBuilder::with_target` (both impls). -/
def AssertionBuilder.with_target (b : AssertionBuilder) (target : String) :
    AssertionBuilder :=
  { b with matcher := some ((b.matcher.getD SpanMatcher.default).set_target target) }

/-- `AssertionBuilder::<NoCriteria>::with_parent_name`. -/
def AssertionBuilder.with_parent_name (b : AssertionBuilder) (name : String) :
    AssertionBuilder :=
  { b with matcher := some ((b.matcher.getD SpanMatcher.default).set_parent_name name) }

/-- `AssertionBuilder::<NoCriteria>::with_span_field`:
`if let Some(matcher) = self.matcher.as_mut() { matcher.add_field_exists(..) }`. -/
def AssertionBuilder.with_span_field (b : AssertionBuilder) (field : String) :
    AssertionBuilder :=
  { b with matcher := b.matcher.map (fun m => m.add_field_exists field) }

/-- `self.criteria.push(criterion)`, common to every criterion-adding
builder method of the `NoCriteria` and `Constrained` impls. -/
def AssertionBuilder.push_criterion (b : AssertionBuilder)
    (c : AssertionCriterion) : AssertionBuilder :=
  { b with criteria := b.criteria ++ [c] }

def AssertionBuilder.was_created (b : AssertionBuilder) : AssertionBuilder :=
  b.push_criterion .WasCreated

def AssertionBuilder.was_entered (b : AssertionBuilder) : AssertionBuilder :=
  b.push_criterion .WasEntered

def AssertionBuilder.was_exited (b : AssertionBuilder) : AssertionBuilder :=
  b.push_criterion .WasExited

def AssertionBuilder.was_closed (b : AssertionBuilder) : AssertionBuilder :=
  b.push_criterion .WasClosed

def AssertionBuilder.was_not_created (b : AssertionBuilder) : AssertionBuilder :=
  b.push_criterion .WasNotCreated

def AssertionBuilder.was_not_entered (b : AssertionBuilder) : AssertionBuilder :=
  b.push_criterion .WasNotEntered

def AssertionBuilder.was_not_exited (b : AssertionBuilder) : AssertionBuilder :=
  b.push_criterion .WasNotExited

def AssertionBuilder.was_not_closed (b : AssertionBuilder) : AssertionBuilder :=
  b.push_criterion .WasNotClosed

def AssertionBuilder.was_created_exactly (b : AssertionBuilder) (n : Nat) :
    AssertionBuilder :=
  b.push_criterion (.CreatedExactly n)

def AssertionBuilder.was_entered_exactly (b : AssertionBuilder) (n : Nat) :
    AssertionBuilder :=
  b.push_criterion (.EnteredExactly n)

def AssertionBuilder.was_exited_exactly (b : AssertionBuilder) (n : Nat) :
    AssertionBuilder :=
  b.push_criterion (.ExitedExactly n)

def AssertionBuilder.was_closed_exactly (b : AssertionBuilder) (n : Nat) :
    AssertionBuilder :=
  b.push_criterion (.ClosedExactly n)

def AssertionBuilder.was_created_at_least (b : AssertionBuilder) (n : Nat) :
    AssertionBuilder :=
  b.push_criterion (.CreatedAtLeast n)

def AssertionBuilder.was_entered_at_least (b : AssertionBuilder) (n : Nat) :
    AssertionBuilder :=
  b.push_criterion (.EnteredAtLeast n)

def AssertionBuilder.was_exited_at_least (b : AssertionBuilder) (n : Nat) :
    AssertionBuilder :=
  b.push_criterion (.ExitedAtLeast n)

def AssertionBuilder.was_closed_at_least (b : AssertionBuilder) (n : Nat) :
    AssertionBuilder :=
  b.push_criterion (.ClosedAtLeast n)

/-- `AssertionBuilder::<Constrained>::finalize`:
`self.matcher.take().expect("matcher must be present at this point")`
(the `expect` panic is modelled as `none`) followed by
`state.create_entry(matcher.clone())`. -/
def AssertionBuilder.finalize (b : AssertionBuilder) (s : State) :
    Option (Assertion × State) :=
  match b.matcher with
  | none => none
  | some matcher =>
      let r := s.create_entry matcher
      some (⟨r.1, matcher, b.criteria⟩, r.2)

/-- Which builder values are reachable at which typestate stage through
the public API of src/assertion.rs: one constructor per public builder
method, from `AssertionRegistry::build` onward.  The criterion-adding
methods of the `NoCriteria` and `Constrained` impls all reduce to
`push_criterion` with the corresponding `AssertionCriterion`. -/
inductive ReachableBuilder : BuilderStage → AssertionBuilder → Prop where
  | build : ReachableBuilder .NoMatcher AssertionBuilder.build
  | with_name_nm (b : AssertionBuilder) (n : String) :
      ReachableBuilder .NoMatcher b →
      ReachableBuilder .NoCriteria (b.with_name n)
  | with_target_nm (b : AssertionBuilder) (t : String) :
      ReachableBuilder .NoMatcher b →
      ReachableBuilder .NoCriteria (b.with_target t)
  | with_name_nc (b : AssertionBuilder) (n : String) :
      ReachableBuilder .NoCriteria b →
      ReachableBuilder .NoCriteria (b.with_name n)
  | with_target_nc (b : AssertionBuilder) (t : String) :
      ReachableBuilder .NoCriteria b →
      ReachableBuilder .NoCriteria (b.with_target t)
  | with_parent_name_nc (b : AssertionBuilder) (n : String) :
      ReachableBuilder .NoCriteria b →
      ReachableBuilder .NoCriteria (b.with_parent_name n)
  | with_span_field_nc (b : AssertionBuilder) (f : String) :
      ReachableBuilder .NoCriteria b →
      ReachableBuilder .NoCriteria (b.with_span_field f)
  | criterion_nc (b : AssertionBuilder) (c : AssertionCriterion) :
      ReachableBuilder .NoCriteria b →
      ReachableBuilder .Constrained (b.push_criterion c)
  | criterion_c (b : AssertionBuilder) (c : AssertionCriterion) :
      ReachableBuilder .Constrained b →
      ReachableBuilder .Constrained (b.push_criterion c)

/-! ### Spec-side characterizations and supporting lemmas -/

/-- The per-criterion pass condition as the spec states it: `was_x` holds
iff the count is nonzero, `was_not_x` iff it is zero, `_exactly(n)` iff it
equals `n`, `_at_least(n)` iff it is `≥ n`. -/
def criterionHolds (c : AssertionCriterion) (e : EntryState) : Prop :=
  match c with
  | .WasCreated => e.num_created ≠ 0
  | .WasEntered => e.num_entered ≠ 0
  | .WasExited => e.num_exited ≠ 0
  | .WasClosed => e.num_closed ≠ 0
  | .WasNotCreated => e.num_created = 0
  | .WasNotEntered => e.num_entered = 0
  | .WasNotExited => e.num_exited = 0
  | .WasNotClosed => e.num_closed = 0
  | .CreatedExactly times => e.num_created = times
  | .EnteredExactly times => e.num_entered = times
  | .ExitedExactly times => e.num_exited = times
  | .ClosedExactly times => e.num_closed = times
  | .CreatedAtLeast times => e.num_created ≥ times
  | .EnteredAtLeast times => e.num_entered ≥ times
  | .ExitedAtLeast times => e.num_exited ≥ times
  | .ClosedAtLeast times => e.num_closed ≥ times

theorem try_assert_iff_holds (c : AssertionCriterion) (e : EntryState) :
    c.try_assert e = true ↔ criterionHolds c e := by
  cases c <;>
    simp [AssertionCriterion.try_assert, criterionHolds]

theorem assert_ok_iff_try_assert (c : AssertionCriterion) (e : EntryState) :
    c.assert e = Except.ok () ↔ c.try_assert e = true := by
  cases c <;>
    · simp only [AssertionCriterion.assert, AssertionCriterion.try_assert]
      split <;> simp_all

theorem assertAll_ok_iff (criteria : List AssertionCriterion) (e : EntryState) :
    assertAll criteria e = Except.ok () ↔
      criteria.all (fun c => c.try_assert e) = true := by
  induction criteria with
  | nil => simp [assertAll]
  | cons c rest ih =>
      simp only [assertAll, List.all_cons, Bool.and_eq_true]
      cases h : c.assert e with
      | error msg =>
          constructor
          · intro hcontra
            exact absurd hcontra (by simp)
          · rintro ⟨hc, -⟩
            rw [← assert_ok_iff_try_assert] at hc
            rw [h] at hc
            exact absurd hc (by simp)
      | ok u =>
          have hc : c.try_assert e = true := by
            rw [← assert_ok_iff_try_assert, h]
          simp [hc, ih]

/-- C6: `Assertion::try_assert()` returns `true` iff every stored
criterion holds against the current counter values — `was_x` iff the
count is nonzero, `was_not_x` iff it is `0`, `was_x_exactly(n)` iff it
equals `n`, `was_x_at_least(n)` iff it is `≥ n` — and `false` otherwise
(the implementation stops at the first failing criterion).  It reads the
counters purely: in this embedding `try_assert` is a function of the
counters returning `Bool`, so repeated calls cannot change the counters. -/
theorem try_assert_true_iff_all_criteria_hold (a : Assertion) (e : EntryState) :
    a.try_assert e = true ↔ ∀ c ∈ a.criteria, criterionHolds c e := by
  simp [Assertion.try_assert, List.all_eq_true, try_assert_iff_holds]

/-- Witness for C6 at a concrete input. -/
theorem try_assert_true_iff_all_criteria_hold_witness :
    Assertion.try_assert
      ⟨0, SpanMatcher.default, [AssertionCriterion.WasCreated]⟩
      ⟨1, 0, 0, 0⟩ = true :=
  (try_assert_true_iff_all_criteria_hold _ _).mpr (by
    intro c hc
    rw [List.mem_singleton] at hc
    subst hc
    show (1 : Nat) ≠ 0
    decide)

/-- C7: `Assertion::assert()` evaluates the stored criteria in order and
panics (modelled by `Except.error`, carrying the failing criterion with
its expected-vs-actual values) at the first failing criterion; it returns
normally (`Except.ok ()`) iff all criteria hold, i.e. iff `try_assert`
would return `true` at the same counter values. -/
theorem assert_ok_iff_try_assert_true (a : Assertion) (e : EntryState) :
    a.assert e = Except.ok () ↔ a.try_assert e = true := by
  rw [Assertion.assert, Assertion.try_assert, assertAll_ok_iff]

/-- Witness for C7 at a concrete input. -/
theorem assert_ok_iff_try_assert_true_witness :
    Assertion.assert
      ⟨0, SpanMatcher.default, [AssertionCriterion.WasNotCreated]⟩
      EntryState.default = Except.ok () :=
  (assert_ok_iff_try_assert_true _ _).mpr (by decide)

/-! ### Heap helper lemmas -/

theorem updateAt_length (xs : List EntryState) (i : Nat)
    (f : EntryState → EntryState) : (updateAt xs i f).length = xs.length := by
  induction xs generalizing i with
  | nil => rfl
  | cons x rest ih => cases i <;> simp [updateAt, ih]

theorem updateAt_getD_ne (xs : List EntryState) (i : Nat)
    (f : EntryState → EntryState) (j : Nat) (d : EntryState) (h : j ≠ i) :
    (updateAt xs i f).getD j d = xs.getD j d := by
  induction xs generalizing i j with
  | nil => rfl
  | cons x rest ih =>
      cases i with
      | zero =>
          cases j with
          | zero => exact absurd rfl h
          | succ k => simp [updateAt]
      | succ n =>
          cases j with
          | zero => simp [updateAt]
          | succ k =>
              simp only [updateAt, List.getD_cons_succ]
              exact ih n k (fun hk => h (by rw [hk]))

theorem updateAt_getD_self (xs : List EntryState) (i : Nat)
    (f : EntryState → EntryState) (d : EntryState) (h : i < xs.length) :
    (updateAt xs i f).getD i d = f (xs.getD i d) := by
  induction xs generalizing i with
  | nil => simp at h
  | cons x rest ih =>
      cases i with
      | zero => simp [updateAt]
      | succ n =>
          simp only [updateAt, List.getD_cons_succ]
          exact ih n (by simpa using h)

theorem updateAt_ge_length (xs : List EntryState) (i : Nat)
    (f : EntryState → EntryState) (h : xs.length ≤ i) :
    updateAt xs i f = xs := by
  induction xs generalizing i with
  | nil => rfl
  | cons x rest ih =>
      cases i with
      | zero => simp at h
      | succ n =>
          simp only [updateAt, List.cons.injEq, true_and]
          exact ih n (by simpa using h)

theorem getD_concat_self {α : Type} (xs : List α) (y : α) (d : α) :
    (xs ++ [y]).getD xs.length d = y := by
  induction xs with
  | nil => rfl
  | cons x rest ih =>
      simp only [List.cons_append, List.length_cons, List.getD_cons_succ]
      exact ih

theorem getD_concat_lt {α : Type} (xs : List α) (y : α) (j : Nat) (d : α)
    (h : j < xs.length) : (xs ++ [y]).getD j d = xs.getD j d := by
  induction xs generalizing j with
  | nil => simp at h
  | cons x rest ih =>
      cases j with
      | zero => rfl
      | succ k =>
          simp only [List.cons_append, List.getD_cons_succ]
          exact ih k (by simpa using h)

theorem getD_concat_default {α : Type} (xs : List α) (j : Nat) (d : α) :
    (xs ++ [d]).getD j d = xs.getD j d := by
  rcases lt_trichotomy j xs.length with h | h | h
  · exact getD_concat_lt xs d j d h
  · subst h
    rw [getD_concat_self]
    exact (List.getD_eq_default _ _ (le_refl _)).symm
  · rw [List.getD_eq_default, List.getD_eq_default]
    · omega
    · simp
      omega

/-- Componentwise order on the four counters. -/
def EntryState.le (a b : EntryState) : Prop :=
  a.created ≤ b.created ∧ a.entered ≤ b.entered ∧
    a.exited ≤ b.exited ∧ a.closed ≤ b.closed

theorem EntryState.le_rfl (e : EntryState) : e.le e :=
  ⟨Nat.le_refl _, Nat.le_refl _, Nat.le_refl _, Nat.le_refl _⟩

theorem track_le (l : Lifecycle) (e : EntryState) : e.le (e.track l) := by
  cases l <;>
    simp [EntryState.track, EntryState.track_created, EntryState.track_entered,
      EntryState.track_exited, EntryState.track_closed, EntryState.le]

theorem track_num_self (l : Lifecycle) (e : EntryState) :
    (e.track l).num l = e.num l + 1 := by
  cases l <;> rfl

theorem track_num_other (l l' : Lifecycle) (e : EntryState) (h : l' ≠ l) :
    (e.track l).num l' = e.num l' := by
  cases l <;> cases l' <;> first | exact absurd rfl h | rfl

/-- C8: each `EntryState` counter is monotonically non-decreasing: each
`track_*` increments exactly its own counter by one and leaves the other
three unchanged, each `num_*` returns the current value as an integer
`≥ 0`, and no operation of the system (`create_entry`, `remove_entry`, a
handle's drop, or an event dispatch) ever decreases or resets a counter
of any already-allocated `EntryState`. -/
theorem counters_monotone_and_track_exact :
    (∀ (l : Lifecycle) (e : EntryState),
        (e.track l).num l = e.num l + 1 ∧
        ∀ l' : Lifecycle, l' ≠ l → (e.track l).num l' = e.num l') ∧
    (∀ (e : EntryState) (l : Lifecycle), 0 ≤ e.num l) ∧
    (∀ (s : State) (m : SpanMatcher) (i : Nat),
        (s.create_entry m).2.heap.getD i EntryState.default
          = s.heap.getD i EntryState.default) ∧
    (∀ (s : State) (m : SpanMatcher) (i : Nat),
        (s.remove_entry m).heap.getD i EntryState.default
          = s.heap.getD i EntryState.default) ∧
    (∀ (a : Assertion) (s : State) (i : Nat),
        (a.drop s).heap.getD i EntryState.default
          = s.heap.getD i EntryState.default) ∧
    (∀ (s : State) (l : Lifecycle) (sp : SpanRef) (i : Nat),
        EntryState.le (s.heap.getD i EntryState.default)
          ((s.dispatch l sp).heap.getD i EntryState.default)) := by
  refine ⟨fun l e => ⟨track_num_self l e, fun l' h => track_num_other l l' e h⟩,
    fun e l => Nat.zero_le _, ?_, fun s m i => rfl, fun a s i => rfl, ?_⟩
  · intro s m i
    simp only [State.create_entry]
    cases h : s.entries.find? (fun p => p.1 == m) with
    | some p => rfl
    | none => exact getD_concat_default s.heap i EntryState.default
  · intro s l sp i
    cases h : s.get_entry sp with
    | none =>
        simp only [State.dispatch, h]
        exact EntryState.le_rfl _
    | some id =>
        simp only [State.dispatch, h]
        by_cases hij : i = id
        · subst hij
          by_cases hlen : i < s.heap.length
          · rw [updateAt_getD_self s.heap i _ _ hlen]
            exact track_le l _
          · rw [updateAt_ge_length s.heap i _ (Nat.le_of_not_lt hlen)]
            exact EntryState.le_rfl _
        · rw [updateAt_getD_ne s.heap id _ i _ hij]
          exact EntryState.le_rfl _

/-- Witness for C8 at a concrete input. -/
theorem counters_monotone_and_track_exact_witness :
    (EntryState.track .created EntryState.default).num .entered
      = EntryState.default.num .entered :=
  (counters_monotone_and_track_exact.1 .created EntryState.default).2 .entered
    (by decide)

theorem chainHasName_iff (p : SpanRef) (n : String) :
    chainHasName p n = true ↔ ∃ a ∈ p :: p.ancestors, SpanRef.name a = n := by
  induction p with
  | root nm t f =>
      simp [chainHasName, SpanRef.ancestors, SpanRef.name]
  | child nm t f parent ih =>
      simp only [chainHasName, Bool.or_eq_true, beq_iff_eq, ih,
        SpanRef.ancestors, List.mem_cons, SpanRef.name]
      constructor
      · rintro (h | ⟨a, ha, hn⟩)
        · exact ⟨.child nm t f parent, Or.inl rfl, h⟩
        · exact ⟨a, Or.inr ha, hn⟩
      · rintro ⟨a, ha | ha, hn⟩
        · subst ha
          exact Or.inl hn
        · exact Or.inr ⟨a, ha, hn⟩

/-- Test fixture: the span chain root→A→B→C used by the spec's ancestor
matching scenario. -/
def exRoot : SpanRef := .root "root" "t" []

def exA : SpanRef := .child "A" "t" [] exRoot

def exB : SpanRef := .child "B" "t" [] exA

def exC : SpanRef := .child "C" "t" [] exB

/-- Test fixture: a matcher requiring only an ancestor named "A". -/
def exParentMatcher : SpanMatcher := ⟨none, none, some "A", []⟩

/-- C5: `SpanMatcher::matches(event)` returns `true` iff (name unset OR
the span's name equals it) AND (target unset OR the span's target equals
it) AND (parent-name unset OR some strict ancestor of the span — the
span itself excluded — has that name) AND (every required field name is
among the span's fields); a matcher with no criteria set matches every
span, and in the chain root→A→B→C the parent-name "A" matcher matches B
and C but not A. -/
theorem matches_characterization :
    (∀ (m : SpanMatcher) (sp : SpanRef),
        m.matches sp = true ↔
          ((∀ n, m.name = some n → sp.name = n) ∧
           (∀ t, m.target = some t → sp.target = t) ∧
           (∀ pn, m.parent_name = some pn →
              ∃ a ∈ sp.ancestors, SpanRef.name a = pn) ∧
           (∀ f, FieldCriterion.exists_ f ∈ m.fields → f ∈ sp.fields))) ∧
    (∀ sp : SpanRef, SpanMatcher.default.matches sp = true) ∧
    (exParentMatcher.matches exB = true ∧ exParentMatcher.matches exC = true ∧
      exParentMatcher.matches exA = false) := by
  have main : ∀ (m : SpanMatcher) (sp : SpanRef),
      m.matches sp = true ↔
        ((∀ n, m.name = some n → sp.name = n) ∧
         (∀ t, m.target = some t → sp.target = t) ∧
         (∀ pn, m.parent_name = some pn →
            ∃ a ∈ sp.ancestors, SpanRef.name a = pn) ∧
         (∀ f, FieldCriterion.exists_ f ∈ m.fields → f ∈ sp.fields)) := by
    intro m sp
    simp only [SpanMatcher.matches, Bool.and_eq_true, and_assoc]
    refine and_congr ?_ (and_congr ?_ (and_congr ?_ ?_))
    · cases hm : m.name <;> simp
    · cases hm : m.target <;> simp
    · cases hm : m.parent_name with
      | none => simp
      | some pn =>
          cases sp with
          | root nm t f => simp [SpanRef.parent, SpanRef.ancestors]
          | child nm t f parent =>
              simp only [SpanRef.parent, SpanRef.ancestors, chainHasName_iff,
                Option.some.injEq, forall_eq']
    · cases hfs : m.fields with
      | nil => simp
      | cons fc rest =>
          rw [← hfs]
          have hne : m.fields.isEmpty = false := by
            rw [hfs]
            rfl
          simp only [hne, Bool.false_eq_true, if_false, List.all_eq_true]
          constructor
          · intro h f hf
            have := h _ hf
            simpa [List.elem_iff] using this
          · intro h fc hfc
            cases fc with
            | exists_ f =>
                simpa [List.elem_iff] using h f hfc
  refine ⟨main, ?_, ?_⟩
  · intro sp
    rw [main]
    refine ⟨?_, ?_, ?_, ?_⟩ <;> intro x hx <;> simp [SpanMatcher.default] at hx
  · exact ⟨by decide, by decide, by decide⟩

/-- Witness for C5 at a concrete input: the criterion-free matcher
accepts span A. -/
theorem matches_characterization_witness :
    SpanMatcher.default.matches exA = true :=
  matches_characterization.2.1 exA

/-! ### Registry invariants -/

/-- System states reachable through the registry's operations: the empty
registry, entry creation (builder `finalize`), entry removal (handle
drop), and event dispatch (the layer hooks). -/
inductive SysReach : State → Prop where
  | init : SysReach State.init
  | create_entry (s : State) (m : SpanMatcher) :
      SysReach s → SysReach (s.create_entry m).2
  | remove_entry (s : State) (m : SpanMatcher) :
      SysReach s → SysReach (s.remove_entry m)
  | dispatch (s : State) (l : Lifecycle) (sp : SpanRef) :
      SysReach s → SysReach (s.dispatch l sp)

theorem keys_nodup_create_entry (s : State) (m : SpanMatcher)
    (h : (s.entries.map Prod.fst).Nodup) :
    ((s.create_entry m).2.entries.map Prod.fst).Nodup := by
  simp only [State.create_entry]
  cases hf : s.entries.find? (fun p => p.1 == m) with
  | some p => exact h
  | none =>
      have hnotmem : m ∉ s.entries.map Prod.fst := by
        intro hmem
        rcases List.mem_map.mp hmem with ⟨p, hp, hpm⟩
        have := List.find?_eq_none.mp hf p hp
        simp [hpm] at this
      rw [List.map_append, List.map_singleton]
      refine List.Nodup.append h (List.nodup_singleton m) ?_
      intro a ha hb
      rw [List.mem_singleton] at hb
      subst hb
      exact hnotmem ha

theorem keys_nodup_remove_entry (s : State) (m : SpanMatcher)
    (h : (s.entries.map Prod.fst).Nodup) :
    ((s.remove_entry m).entries.map Prod.fst).Nodup :=
  List.Nodup.sublist ((List.filter_sublist s.entries).map Prod.fst) h

theorem entries_dispatch (s : State) (l : Lifecycle) (sp : SpanRef) :
    (s.dispatch l sp).entries = s.entries := by
  simp only [State.dispatch]
  cases h : s.get_entry sp <;> rfl

/-- C4: `State::create_entry(matcher)` returns the stored `CounterSet`
(and leaves the registry unchanged, preserving its counts) when an entry
with a structurally-equal matcher exists; otherwise it appends a fresh
all-zero `CounterSet` keyed by the matcher and returns it; consequently
every state reachable through the registry's operations holds at most
one entry per distinct matcher value. -/
theorem create_entry_dedup_spec :
    (∀ (s : State) (m : SpanMatcher) (i : Nat),
        (s.entries.map Prod.fst).Nodup → (m, i) ∈ s.entries →
        s.create_entry m = (i, s)) ∧
    (∀ (s : State) (m : SpanMatcher),
        (∀ p ∈ s.entries, p.1 ≠ m) →
        (s.create_entry m).1 = s.heap.length ∧
        (s.create_entry m).2.entries = s.entries ++ [(m, s.heap.length)] ∧
        (s.create_entry m).2.heap.getD (s.create_entry m).1 EntryState.default
          = EntryState.default) ∧
    (∀ s : State, SysReach s → (s.entries.map Prod.fst).Nodup) := by
  refine ⟨?_, ?_, ?_⟩
  · intro s m i hnodup hmem
    simp only [State.create_entry]
    cases hf : s.entries.find? (fun p => p.1 == m) with
    | none =>
        exfalso
        have := List.find?_eq_none.mp hf _ hmem
        simp at this
    | some p =>
        have hp1 : p.1 = m := by
          have := List.find?_some hf
          simpa using this
        have hpmem : p ∈ s.entries := List.mem_of_find?_eq_some hf
        have hpi : p = (m, i) :=
          List.inj_on_of_nodup_map hnodup hpmem hmem (by simpa using hp1)
        rw [hpi]
  · intro s m hall
    have hf : s.entries.find? (fun p => p.1 == m) = none :=
      List.find?_eq_none.mpr (fun p hp => by simpa using hall p hp)
    simp only [State.create_entry, hf]
    exact ⟨trivial, trivial,
      getD_concat_self s.heap EntryState.default EntryState.default⟩
  · intro s h
    induction h with
    | init => exact List.nodup_nil
    | create_entry s m _ ih => exact keys_nodup_create_entry s m ih
    | remove_entry s m _ ih => exact keys_nodup_remove_entry s m ih
    | dispatch s l sp _ ih => rw [entries_dispatch]; exact ih

/-- Witness for C4 at concrete inputs. -/
theorem create_entry_dedup_spec_witness :
    State.create_entry ⟨[(exParentMatcher, 0)], [EntryState.default]⟩
        exParentMatcher
      = (0, ⟨[(exParentMatcher, 0)], [EntryState.default]⟩) ∧
    (State.init.create_entry exParentMatcher).1 = 0 ∧
    (State.init.entries.map Prod.fst).Nodup :=
  ⟨create_entry_dedup_spec.1 _ exParentMatcher 0 (by decide) (by decide),
   (create_entry_dedup_spec.2.1 State.init exParentMatcher
      (by intro p hp; simp [State.init] at hp)).1,
   create_entry_dedup_spec.2.2 State.init SysReach.init⟩

/-- C2: dropping an `Assertion` handle removes its matcher's entry from
the registry's mapping (no remaining entry carries a structurally-equal
matcher), so a subsequent `finalize` whose builder holds an equal matcher
allocates a fresh, independent `CounterSet` whose four counters are all
zero — its heap cell is distinct from every previously allocated cell,
and every previously allocated cell (including the one with the old
nonzero counts, still readable through the disposed handle's shared
reference) is left unchanged. -/
theorem drop_then_rebuild_fresh (a : Assertion) (s : State)
    (b : AssertionBuilder) (hb : b.matcher = some a.matcher) :
    (∀ p ∈ (a.drop s).entries, p.1 ≠ a.matcher) ∧
    ((b.finalize (a.drop s)).map fun r => r.1.entry r.2)
      = some EntryState.default ∧
    ((b.finalize (a.drop s)).map fun r => r.1.entry_state)
      = some s.heap.length ∧
    ∀ r, b.finalize (a.drop s) = some r →
      ∀ j, j < s.heap.length →
        r.1.entry_state ≠ j ∧
        r.2.heap.getD j EntryState.default = s.heap.getD j EntryState.default := by
  have hclean : ∀ p ∈ (a.drop s).entries, p.1 ≠ a.matcher := by
    intro p hp
    rw [Assertion.drop, State.remove_entry] at hp
    have := (List.mem_filter.mp hp).2
    simpa using this
  have hf : (a.drop s).entries.find? (fun p => p.1 == a.matcher) = none :=
    List.find?_eq_none.mpr (fun p hp => by simpa using hclean p hp)
  refine ⟨hclean, ?_, ?_, ?_⟩
  · simp only [AssertionBuilder.finalize, hb, State.create_entry, hf,
      Option.map_some']
    rw [Option.some.injEq]
    exact getD_concat_self s.heap EntryState.default EntryState.default
  · simp only [AssertionBuilder.finalize, hb, State.create_entry, hf,
      Option.map_some']
    rfl
  · intro r hr j hj
    simp only [AssertionBuilder.finalize, hb, State.create_entry, hf,
      Option.some.injEq] at hr
    subst hr
    exact ⟨Nat.ne_of_gt hj,
      getD_concat_lt s.heap EntryState.default j EntryState.default hj⟩

/-- Witness for C2 at concrete inputs: the old entry holds count 5, yet
the rebuilt assertion reads a fresh all-zero `CounterSet`. -/
theorem drop_then_rebuild_fresh_witness :
    ((((AssertionBuilder.build.with_parent_name "A").was_created).finalize
        (Assertion.drop ⟨0, exParentMatcher, [AssertionCriterion.WasCreated]⟩
          ⟨[(exParentMatcher, 0)], [⟨5, 0, 0, 0⟩]⟩)).map
      fun r => r.1.entry r.2) = some EntryState.default :=
  (drop_then_rebuild_fresh ⟨0, exParentMatcher, [AssertionCriterion.WasCreated]⟩
    ⟨[(exParentMatcher, 0)], [⟨5, 0, 0, 0⟩]⟩
    ((AssertionBuilder.build.with_parent_name "A").was_created)
    (by decide)).2.1

/-- Registry well-formedness: matcher keys are pairwise distinct, the
heap cells referenced by distinct entries are distinct, and every
referenced cell exists.  (All states reachable through the public API
satisfy this; it is the setting in which dispatch behavior is stated.) -/
def State.WF (s : State) : Prop :=
  (s.entries.map Prod.fst).Nodup ∧ (s.entries.map Prod.snd).Nodup ∧
    ∀ p ∈ s.entries, p.2 < s.heap.length

theorem find?_of_unique (l : List (SpanMatcher × Nat))
    (q : SpanMatcher × Nat → Bool) (p : SpanMatcher × Nat) (hp : p ∈ l)
    (hq : q p = true) (huniq : ∀ r ∈ l, r ≠ p → q r = false) :
    l.find? q = some p := by
  induction l with
  | nil => cases hp
  | cons x rest ih =>
      by_cases hx : x = p
      · subst hx
        exact List.find?_cons_of_pos rest hq
      · have hqx : q x = false := huniq x (List.mem_cons_self x rest) hx
        rw [List.find?_cons_of_neg rest (by simp [hqx])]
        rcases List.mem_cons.mp hp with h | h
        · exact absurd h.symm hx
        · exact ih h (fun r hr hne => huniq r (List.mem_cons_of_mem x hr) hne)

/-- Test fixtures for dispatch: a matcher on name "a", a span named "a",
and a registry holding that matcher plus the match-everything matcher. -/
def c1MatcherA : SpanMatcher := ⟨some "a", none, none, []⟩

def c1Span : SpanRef := .root "a" "t" []

def c1State : State :=
  ⟨[(c1MatcherA, 0), (SpanMatcher.default, 1)],
   [EntryState.default, EntryState.default]⟩

/-- C1 is false as stated: with two stored matchers that both match the
event ("name = a" and the match-everything default matcher), dispatching
a created transition does not increment every matching entry — the
second matching entry's counter is left unchanged, because
`State::get_entry` returns only the first matching entry. -/
theorem dispatch_misses_second_match :
    ¬ (∀ (s : State) (l : Lifecycle) (sp : SpanRef),
        ∀ p ∈ s.entries, p.1.matches sp = true →
          ((s.dispatch l sp).heap.getD p.2 EntryState.default).num l
            = (s.heap.getD p.2 EntryState.default).num l + 1) := by
  intro h
  have hinc := h c1State .created c1Span (SpanMatcher.default, 1)
    (by decide) (by decide)
  exact absurd hinc (by decide)

/-- C1 (amended): a dispatched lifecycle transition increments at most
one registry entry — the first (in registry iteration order) whose
matcher matches the event.  No counter of any entry whose matcher does
not match is changed; and when exactly one stored matcher matches the
event, that entry's counter for the dispatched transition is incremented
exactly once, its other counters and all other entries are unchanged. -/
theorem dispatch_single_increment (s : State) (l : Lifecycle) (sp : SpanRef)
    (hwf : s.WF) :
    (∀ p ∈ s.entries, p.1.matches sp = false →
        (s.dispatch l sp).heap.getD p.2 EntryState.default
          = s.heap.getD p.2 EntryState.default) ∧
    (∀ p ∈ s.entries, p.1.matches sp = true →
        (∀ q ∈ s.entries, q ≠ p → q.1.matches sp = false) →
        (((s.dispatch l sp).heap.getD p.2 EntryState.default).num l
            = (s.heap.getD p.2 EntryState.default).num l + 1 ∧
         (∀ l', l' ≠ l →
            ((s.dispatch l sp).heap.getD p.2 EntryState.default).num l'
              = (s.heap.getD p.2 EntryState.default).num l') ∧
         ∀ q ∈ s.entries, q ≠ p →
            (s.dispatch l sp).heap.getD q.2 EntryState.default
              = s.heap.getD q.2 EntryState.default)) := by
  obtain ⟨hkeys, hids, hbound⟩ := hwf
  constructor
  · intro p hp hpf
    cases hge : s.get_entry sp with
    | none => simp only [State.dispatch, hge]
    | some id =>
        simp only [State.dispatch, hge]
        obtain ⟨p0, hfind, hid⟩ := Option.map_eq_some'.mp hge
        have hp0mem : p0 ∈ s.entries := List.mem_of_find?_eq_some hfind
        have hp0match : p0.1.matches sp = true := by
          have := List.find?_some hfind
          simpa using this
        have hne : p.2 ≠ p0.2 := by
          intro hcontra
          have : p = p0 := List.inj_on_of_nodup_map hids hp hp0mem hcontra
          rw [this, hp0match] at hpf
          exact absurd hpf (by simp)
        rw [hid] at hne
        exact updateAt_getD_ne s.heap id _ p.2 EntryState.default hne
  · intro p hp hpt huniq
    have hfind : s.entries.find? (fun r => r.1.matches sp) = some p :=
      find?_of_unique s.entries _ p hp hpt huniq
    have hge : s.get_entry sp = some p.2 := by
      rw [State.get_entry, hfind]
      rfl
    simp only [State.dispatch, hge]
    refine ⟨?_, ?_, ?_⟩
    · rw [updateAt_getD_self s.heap p.2 _ _ (hbound p hp)]
      exact track_num_self l _
    · intro l' hl'
      rw [updateAt_getD_self s.heap p.2 _ _ (hbound p hp)]
      exact track_num_other l l' _ hl'
    · intro q hq hqp
      have hne : q.2 ≠ p.2 := by
        intro hcontra
        exact hqp (List.inj_on_of_nodup_map hids hq hp hcontra)
      exact updateAt_getD_ne s.heap p.2 _ q.2 EntryState.default hne

/-- Witness for the amended C1 at concrete inputs. -/
theorem dispatch_single_increment_witness :
    ((State.dispatch ⟨[(c1MatcherA, 0)], [EntryState.default]⟩ .created
        c1Span).heap.getD 0 EntryState.default).num .created
      = ((⟨[(c1MatcherA, 0)], [EntryState.default]⟩ :
          State).heap.getD 0 EntryState.default).num .created + 1 :=
  ((dispatch_single_increment ⟨[(c1MatcherA, 0)], [EntryState.default]⟩
      .created c1Span ⟨by decide, by decide, by decide⟩).2
    (c1MatcherA, 0) (by decide) (by decide) (by decide)).1

theorem find?_append_of_none {α : Type} (l₁ l₂ : List α) (q : α → Bool)
    (h : l₁.find? q = none) : (l₁ ++ l₂).find? q = l₂.find? q := by
  induction l₁ with
  | nil => rfl
  | cons x rest ih =>
      have hqx : q x = false := by
        cases hqx : q x
        · rfl
        · rw [List.find?_cons_of_pos rest hqx] at h
          cases h
      rw [List.find?_cons_of_neg rest (by simp [hqx])] at h
      rw [List.cons_append, List.find?_cons_of_neg _ (by simp [hqx])]
      exact ih h

/-- A second `create_entry` with the same matcher finds the entry the
first one stored and returns the same shared `CounterSet` without
changing the registry. -/
theorem create_entry_stable (s : State) (m : SpanMatcher) :
    (s.create_entry m).2.create_entry m
      = ((s.create_entry m).1, (s.create_entry m).2) := by
  cases hf : s.entries.find? (fun p => p.1 == m) with
  | some p => simp only [State.create_entry, hf]
  | none =>
      simp only [State.create_entry, hf]
      have h2 : (s.entries ++ [(m, s.heap.length)]).find?
          (fun p => p.1 == m) = some (m, s.heap.length) := by
        rw [find?_append_of_none _ _ _ hf]
        exact List.find?_cons_of_pos _ (by simp)
      simp only [h2]

/-- Test fixtures for field-order sensitivity: the same name and field
set, with the two fields added in opposite orders. -/
def c3Builder1 : AssertionBuilder :=
  (((AssertionBuilder.build.with_name "x").with_span_field "a").with_span_field
    "b").was_created

def c3Builder2 : AssertionBuilder :=
  (((AssertionBuilder.build.with_name "x").with_span_field "b").with_span_field
    "a").was_created

def c3Span : SpanRef := .root "x" "t" ["a", "b"]

/-- C3 is false as stated: building two assertions with the same name
criterion and the same required-field set {"a","b"} added in opposite
orders yields handles backed by DIFFERENT CounterSets (the derived
structural equality on `SpanMatcher` compares the field `Vec` in order),
and an increment of the first handle's counters is not observable
through the second: after one matching created-dispatch the first reads
1 and the second reads 0. -/
theorem field_order_breaks_sharing :
    ((c3Builder1.finalize State.init).bind fun r1 =>
        (c3Builder2.finalize r1.2).map fun r2 =>
          decide (r2.1.entry_state = r1.1.entry_state)) = some false ∧
    ((c3Builder1.finalize State.init).bind fun r1 =>
        (c3Builder2.finalize r1.2).map fun r2 =>
          ((r2.2.dispatch .created c3Span).heap.getD r1.1.entry_state
            EntryState.default).num_created) = some 1 ∧
    ((c3Builder1.finalize State.init).bind fun r1 =>
        (c3Builder2.finalize r1.2).map fun r2 =>
          ((r2.2.dispatch .created c3Span).heap.getD r2.1.entry_state
            EntryState.default).num_created) = some 0 := by
  decide

/-- C3 (amended): matcher equality compares the field-presence list in
the order the fields were added, so the dedup guarantee holds for two
assertions whose builders carry equal matchers — in particular the same
name/target/parent criteria and the same field names added in the SAME
order: finalizing the second against the state produced by the first
yields a handle backed by the same CounterSet (same heap cell, same
registry state, identical counter reads in every state). -/
theorem equal_matchers_share_counters (m : SpanMatcher)
    (b1 b2 : AssertionBuilder) (s : State)
    (h1 : b1.matcher = some m) (h2 : b2.matcher = some m) :
    ∀ r1 r2, b1.finalize s = some r1 → b2.finalize r1.2 = some r2 →
      r2.2 = r1.2 ∧ r2.1.entry_state = r1.1.entry_state ∧
      ∀ s3 : State, r2.1.entry s3 = r1.1.entry s3 := by
  intro r1 r2 hr1 hr2
  simp only [AssertionBuilder.finalize, h1, Option.some.injEq] at hr1
  subst hr1
  simp only [AssertionBuilder.finalize, h2, Option.some.injEq] at hr2
  rw [create_entry_stable] at hr2
  subst hr2
  exact ⟨rfl, rfl, fun s3 => rfl⟩

/-- Fixtures for the amended C3 witness: the same matcher built twice
with the fields in the same order, under different criteria. -/
def c3mSame : SpanMatcher :=
  ⟨some "x", none, none, [.exists_ "a", .exists_ "b"]⟩

def c3Builder1b : AssertionBuilder :=
  (((AssertionBuilder.build.with_name "x").with_span_field "a").with_span_field
    "b").was_entered

def c3r1 : Assertion × State :=
  (⟨0, c3mSame, [.WasCreated]⟩, ⟨[(c3mSame, 0)], [EntryState.default]⟩)

def c3r2 : Assertion × State :=
  (⟨0, c3mSame, [.WasEntered]⟩, ⟨[(c3mSame, 0)], [EntryState.default]⟩)

/-- Witness for the amended C3 at concrete inputs. -/
theorem equal_matchers_share_counters_witness :
    c3r2.2 = c3r1.2 ∧ c3r2.1.entry_state = c3r1.1.entry_state :=
  have h := equal_matchers_share_counters c3mSame c3Builder1 c3Builder1b
    State.init (by decide) (by decide) c3r1 c3r2 (by decide) (by decide)
  ⟨h.1, h.2.1⟩

theorem reachable_stage_invariant (st : BuilderStage) (b : AssertionBuilder)
    (h : ReachableBuilder st b) :
    (st = .NoCriteria → b.matcher.isSome) ∧
    (st = .Constrained → b.matcher.isSome ∧ b.criteria ≠ []) := by
  induction h with
  | build => exact ⟨(fun h => nomatch h), (fun h => nomatch h)⟩
  | with_name_nm b n _ _ =>
      exact ⟨fun _ => by simp [AssertionBuilder.with_name], fun h => nomatch h⟩
  | with_target_nm b t _ _ =>
      exact ⟨fun _ => by simp [AssertionBuilder.with_target], fun h => nomatch h⟩
  | with_name_nc b n _ _ =>
      exact ⟨fun _ => by simp [AssertionBuilder.with_name], fun h => nomatch h⟩
  | with_target_nc b t _ _ =>
      exact ⟨fun _ => by simp [AssertionBuilder.with_target], fun h => nomatch h⟩
  | with_parent_name_nc b n _ _ =>
      exact ⟨fun _ => by simp [AssertionBuilder.with_parent_name],
        fun h => nomatch h⟩
  | with_span_field_nc b f _ ih =>
      refine ⟨fun _ => ?_, fun h => nomatch h⟩
      have := ih.1 rfl
      simpa [AssertionBuilder.with_span_field] using this
  | criterion_nc b c _ ih =>
      refine ⟨(fun h => nomatch h),
        fun _ => ⟨?_, by simp [AssertionBuilder.push_criterion]⟩⟩
      have := ih.1 rfl
      simpa [AssertionBuilder.push_criterion] using this
  | criterion_c b c _ ih =>
      refine ⟨(fun h => nomatch h),
        fun _ => ⟨?_, by simp [AssertionBuilder.push_criterion]⟩⟩
      have := (ih.2 rfl).1
      simpa [AssertionBuilder.push_criterion] using this

/-- C9: `finalize` is available only in the `Constrained` stage, and
every builder that reaches `Constrained` through the public API
(starting from `AssertionRegistry::build`) carries a matcher and at
least one criterion; hence finalize's "matcher must be present" `expect`
branch (modelled as `none`) is unreachable, and every `Assertion` it
returns carries that matcher and a non-empty criteria list. -/
theorem constrained_finalize_total (b : AssertionBuilder)
    (h : ReachableBuilder .Constrained b) :
    b.matcher.isSome ∧ b.criteria ≠ [] ∧
    ∀ s : State, ∃ r : Assertion × State, b.finalize s = some r ∧
      some r.1.matcher = b.matcher ∧ r.1.criteria = b.criteria ∧
      r.1.criteria ≠ [] := by
  obtain ⟨hm, hc⟩ := (reachable_stage_invariant _ _ h).2 rfl
  refine ⟨hm, hc, ?_⟩
  intro s
  obtain ⟨m, hmeq⟩ := Option.isSome_iff_exists.mp hm
  refine ⟨(⟨(s.create_entry m).1, m, b.criteria⟩, (s.create_entry m).2),
    ?_, ?_, rfl, hc⟩
  · simp only [AssertionBuilder.finalize, hmeq]
  · rw [hmeq]

/-- Witness for C9: a concrete builder reaching `Constrained` through
`build → with_name → was_created`. -/
theorem constrained_finalize_total_witness :
    ((AssertionBuilder.build.with_name "x").was_created).matcher.isSome :=
  (constrained_finalize_total _
    (ReachableBuilder.criterion_nc _ .WasCreated
      (ReachableBuilder.with_name_nm _ "x" ReachableBuilder.build))).1

/-- C10: the builder's criterion-adding operations only ever append — the
finalized `Assertion` holds exactly the pushed criteria in call order —
and the criteria are evaluated conjunctively, so an assertion holding two
mutually unsatisfiable criteria (`was_created_exactly m` and
`was_created_exactly n` with `m ≠ n`) can never satisfy `try_assert`. -/
theorem criteria_append_and_conjunctive :
    (∀ (b : AssertionBuilder) (c : AssertionCriterion),
        (b.push_criterion c).criteria = b.criteria ++ [c]) ∧
    (∀ (b : AssertionBuilder) (n : Nat),
        (b.was_created_exactly n).criteria
          = b.criteria ++ [AssertionCriterion.CreatedExactly n]) ∧
    (∀ (b : AssertionBuilder) (s : State) (r : Assertion × State),
        b.finalize s = some r → r.1.criteria = b.criteria) ∧
    (∀ (a : Assertion) (e : EntryState) (m n : Nat), m ≠ n →
        AssertionCriterion.CreatedExactly m ∈ a.criteria →
        AssertionCriterion.CreatedExactly n ∈ a.criteria →
        a.try_assert e = false) := by
  refine ⟨fun b c => rfl, fun b n => rfl, ?_, ?_⟩
  · intro b s r hr
    cases hm : b.matcher with
    | none => rw [AssertionBuilder.finalize, hm] at hr; cases hr
    | some m =>
        simp only [AssertionBuilder.finalize, hm, Option.some.injEq] at hr
        subst hr
        rfl
  · intro a e m n hmn hm hn
    cases h : a.try_assert e with
    | false => rfl
    | true =>
        exfalso
        rw [Assertion.try_assert, List.all_eq_true] at h
        have h1 := h _ hm
        have h2 := h _ hn
        simp only [AssertionCriterion.try_assert, beq_iff_eq] at h1 h2
        exact hmn (h1.symm.trans h2)

/-- Witness for C10 at concrete inputs. -/
theorem criteria_append_and_conjunctive_witness :
    Assertion.try_assert
      ⟨0, SpanMatcher.default,
        [AssertionCriterion.CreatedExactly 1,
         AssertionCriterion.CreatedExactly 2]⟩
      EntryState.default = false :=
  criteria_append_and_conjunctive.2.2.2 _ EntryState.default 1 2
    (by decide) (by decide) (by decide)

end FluentAssertions
